import Mathlib

/-!
# Verification of `webp-conv` (`src/Converter.js`, v2.1.2)

Shallow embedding of the WebP → GIF/PNG converter: job validation,
output-path inference, settings merge, the frame-synchronization poll
loop, alpha thresholding, frame ordering, the static decode path, and
workspace cleanup with bounded retry.

The filesystem, the external decoder processes and the image library are
modelled as explicit environments; every definition is translated from
the JavaScript source.
-/

namespace WebpConv

/-! ## Path helpers (Node.js `path` module, POSIX behaviour) -/

/-- Index of the last occurrence of `c` in `l`, if any. -/
def lastIndexOf (c : Char) (l : List Char) : Option Nat :=
  match l with
  | [] => none
  | x :: xs =>
    match lastIndexOf c xs with
    | some i => some (i + 1)
    | none => if x = c then some 0 else none

/-- Characters after the last `/` (the whole list when there is no `/`).
Embeds `path.basename(p)` for paths without trailing slashes. -/
def basenameChars (l : List Char) : List Char :=
  match lastIndexOf '/' l with
  | some i => l.drop (i + 1)
  | none => l

/-- Embeds `path.basename(p)`. -/
def basenameOf (s : String) : String :=
  ⟨basenameChars s.data⟩

/-- Embeds `path.extname(p)`: the substring of the basename from its last `.`;
empty when there is no dot or the only dot is the leading character. -/
def extname (s : String) : String :=
  let b := basenameChars s.data
  match lastIndexOf '.' b with
  | none => ""
  | some 0 => ""
  | some i => ⟨b.drop i⟩

/-- Embeds `path.dirname(p)` for paths without trailing slashes: everything
before the last `/`; `"."` when there is no `/`; `"/"` for a root child. -/
def dirname (s : String) : String :=
  match lastIndexOf '/' s.data with
  | none => "."
  | some 0 => "/"
  | some i => ⟨s.data.take i⟩

/-- Embeds `path.join(dir, name)` as it is used on the outputs of `dirname`:
`.`-normalisation for the current directory, root handling for `/`. -/
def pathJoin (dir name : String) : String :=
  if dir = "." then name
  else if dir = "/" then "/" ++ name
  else dir ++ "/" ++ name

/-- Embeds `s.endsWith(suffix)`: the last characters of `s` are exactly
`suffix`. -/
def strEndsWith (s suffix : String) : Bool :=
  s.data.drop (s.data.length - suffix.data.length) == suffix.data

/-- Embeds `path.basename(p, '.webp')`: the basename with a trailing `.webp`
stripped, unless the basename is exactly `.webp`. -/
def basenameNoWebp (s : String) : String :=
  let b := basenameOf s
  if b ≠ ".webp" ∧ strEndsWith b ".webp" then ⟨b.data.take (b.data.length - 5)⟩ else b

/-! ## Filesystem and job model -/

/-- The parts of the `fs` module the converter reads: existence, the
is-regular-file test, and whole-file reads (`none` = the read throws). -/
structure FileSys where
  fexists : String → Bool
  isFile : String → Bool
  readFile : String → Option (List Nat)

/-- A conversion job object. `input`/`output` are `none` when the field
is absent (`undefined`); `settings` is the job's settings object as an
association list of its own enumerable keys, in insertion order. -/
structure Job where
  input : Option String
  output : Option String
  settings : List (String × String)

/-- Embeds `#validateJob(job)`, translated check by check; a `none` job stands
for a non-object argument. The JS falsiness of `""` for `job.input` is
kept. Returns the thrown message on failure. -/
def validateJob (fsx : FileSys) (j : Option Job) : Except String Unit :=
  match j with
  | none => .error "Job must be an object"
  | some job =>
    match job.input with
    | none => .error "Job must have an input property with the path to the input file"
    | some input =>
      if input = "" then
        .error "Job must have an input property with the path to the input file"
      else if fsx.fexists input = false then
        .error "Input file does not exist"
      else if fsx.isFile input = false then
        .error "Input is not a file"
      else if extname input ≠ ".webp" then
        .error "Input file is not a webp file"
      else
        .ok ()

/-- The validation loop of `convertJobs`: every job is validated, in
order, before any processing; the first failure propagates. -/
def validateAll (fsx : FileSys) : List (Option Job) → Except String Unit
  | [] => .ok ()
  | j :: rest =>
    match validateJob fsx j with
    | .error e => .error e
    | .ok _ => validateAll fsx rest

/-! ## Options merge (JS spread semantics on plain objects) -/

/-- Option objects as association lists of enumerable own keys in
insertion order; a later entry for the same key shadows an earlier one,
as in a JS object literal. -/
abbrev Opts := List (String × String)

/-- Property read `o.k`: the value of the LAST entry for `k` (JS object
semantics), `none` when the key is absent (`undefined`). -/
def lookupOpt (o : Opts) (k : String) : Option String :=
  match o with
  | [] => none
  | (k', v) :: rest =>
    match lookupOpt rest k with
    | some w => some w
    | none => if k' = k then some v else none

/-- The spread merge `{ ...a, ...b }`: all entries of `a` then all of
`b`; the later object's keys win on lookup. -/
def jsSpread (a b : Opts) : Opts := a ++ b

/-- The hardcoded `#defaultOptions` initialiser:
`{ quality: 10, transparent: '0x000000' }`. -/
def hardcodedDefaults : Opts := [("quality", "10"), ("transparent", "0x000000")]

/-- The constructor: `this.#defaultOptions = { ...this.#defaultOptions, ...defaultOptions }`. -/
def instanceDefaults (ctorOpts : Opts) : Opts := jsSpread hardcodedDefaults ctorOpts

/-! ## Alpha thresholding (`convert`, frame pixel loop) -/

/-- One step of the pixel loop at an alpha byte:
`if (data[j + 3] > 0 && data[j + 3] < 128) data[j + 3] = 0`. -/
def thresholdAlpha (a : Nat) : Nat :=
  if 0 < a ∧ a < 128 then 0 else a

/-- The pixel loop `for (let j = 0; j < data.length; j += 4)` over flat
RGBA data: every fourth byte (the alpha channel) is thresholded, the
red, green and blue bytes pass through untouched. A trailing partial
pixel is left unchanged (the out-of-range store on a typed array is a
no-op). -/
def applyAlphaThreshold : List Nat → List Nat
  | r :: g :: b :: a :: rest => r :: g :: b :: thresholdAlpha a :: applyAlphaThreshold rest
  | l => l

/-! ## Frame file ordering (`convert`, animated branch) -/

/-- Embeds `fs.readdirSync(folder).filter(file => path.extname(file) === '.png')`:
the directory listing in the order the listing returns it, restricted to
`.png` files. No sorting is applied. -/
def framesFilter (listing : List String) : List String :=
  listing.filter (fun f => extname f = ".png")

/-- Modelled from the spec: the numeric frame index embedded in a
filename, read off as the number formed by its digit characters. -/
def specNumericIndex (s : String) : Nat :=
  (s.data.filter Char.isDigit).foldl (fun n c => n * 10 + (c.toNat - 48)) 0

/-- Modelled from the spec: insertion of a filename into a list sorted
by embedded numeric frame index. -/
def specInsertByIndex (f : String) : List String → List String
  | [] => [f]
  | g :: rest =>
    if specNumericIndex f ≤ specNumericIndex g then f :: g :: rest
    else g :: specInsertByIndex f rest

/-- Modelled from the spec: the frame files sorted by the numeric frame
index embedded in each filename, as §4.5 prescribes. -/
def specNumericSort : List String → List String
  | [] => []
  | f :: rest => specInsertByIndex f (specNumericSort rest)

/-! ## Frame synchronization (`waitForFrames`) -/

/-- The poll loop of `waitForFrames`, run for at most `fuel` directory
reads against a trace `counts` of the directory entry count at each
poll. `while (fs.readdirSync(folder).length !== expectedCount) await
sleep(50)`: the loop exits at the first poll `t` with
`counts t = expectedCount` — and only then. `some t` is the exit poll;
`none` means the loop was still spinning after `fuel` polls. The source
loop has no other exit: no timeout, no error. -/
def waitForFramesFuel (counts : Nat → Nat) (expectedCount : Nat) : Nat → Option Nat
  | 0 => none
  | fuel + 1 =>
    if counts 0 = expectedCount then some 0
    else
      match waitForFramesFuel (fun t => counts (t + 1)) expectedCount fuel with
      | some t => some (t + 1)
      | none => none

/-! ## Output path inference (`#generateOutputPath`) -/

/-- The byte sequence of `Buffer.from('ANIM')`. -/
def animMarker : List Nat := [65, 78, 73, 77]

/-- Tests that `l` starts with `pat`. -/
def startsWithSeq (pat l : List Nat) : Bool :=
  match pat, l with
  | [], _ => true
  | _ :: _, [] => false
  | p :: ps, x :: xs => p = x && startsWithSeq ps xs

/-- Embeds `buffer.includes(pat)`: `pat` occurs contiguously in `l`. -/
def containsSeq (pat l : List Nat) : Bool :=
  match l with
  | [] => startsWithSeq pat []
  | _ :: xs => startsWithSeq pat l || containsSeq pat xs

/-- Embeds `#generateOutputPath(inputPath)`: directory and `.webp`-stripped
basename of the input; `.gif` when the file's bytes contain the `ANIM`
marker, `.png` otherwise; `.png` when the read throws. -/
def generateOutputPath (fsx : FileSys) (inputPath : String) : String :=
  let dir := dirname inputPath
  let basename := basenameNoWebp inputPath
  match fsx.readFile inputPath with
  | none => pathJoin dir (basename ++ ".png")
  | some buffer =>
    let isAnimated := containsSeq animMarker buffer
    let ext := if isAnimated then ".gif" else ".png"
    pathJoin dir (basename ++ ext)

/-! ## Workspace cleanup (`cleanupFolder`) -/

/-- The constant `maxCleanupAttempts = 5`. -/
def maxCleanupAttempts : Nat := 5

/-- The retrying cleanup `cleanupFolder`, with `rmOk i` telling whether
the `i`-th removal attempt succeeds (this also covers the
`fs.existsSync` guard: an already-absent folder counts as success).
Returns the total number of attempts made. A failed attempt increments
the shared counter and reschedules itself only while the counter stays
below `maxCleanupAttempts`; no failure is ever rethrown — the function
returns in every case. -/
def cleanupFolder (rmOk : Nat → Bool) (attempts : Nat) : Nat :=
  if rmOk attempts then attempts + 1
  else if attempts + 1 < maxCleanupAttempts then cleanupFolder rmOk (attempts + 1)
  else attempts + 1
termination_by maxCleanupAttempts - attempts
decreasing_by simp only [maxCleanupAttempts] at *; omega

/-- A full cleanup run: `cleanupAttempts` starts at 0. -/
def cleanupRun (rmOk : Nat → Bool) : Nat := cleanupFolder rmOk 0

/-! ## The conversion pipeline (`convert`) -/

/-- The shape of `data.anim` of a loaded image: canvas size, loop count, and the
per-frame metadata (the `delay` of each entry of `data.anim.frames`). -/
structure AnimMeta where
  width : Nat
  height : Nat
  loops : Nat
  frames : List Nat

/-- Observable side effects of a conversion: external process launches,
output-stream creation and encoder calls, workspace handling. -/
inductive Effect where
  | dwebpCall (args : List String)
  | encoderInit (output : String) (loops : Nat) (transparent : Option String)
      (quality : Option String)
  | prepareWorkspace (folder : String)
  | animDump (args : List String)
  | addFrame (file : String) (raster : List Nat) (delay : Nat)
  | finishEncode
  | cleanup (folder : String) (attempts : Nat)
  deriving DecidableEq, Repr

deriving instance DecidableEq for Except

/-- Result of a `convert` call: a settled promise (resolved path or
rejection message), or a call that never settles. -/
inductive ConvOutcome where
  | done (r : Except String String)
  | hangs
  deriving DecidableEq, Repr

/-- Environment of one `convert` run: the filesystem, the image
library's view of the input (`none` = `img.load` throws), the exit
status of the two external decoders, the directory listing observed
when the frame wait exits (`none` = the entry count never equals the
expected count, so `waitForFrames` never returns), per-frame-file
`loadImage` success and raster bytes, and the per-attempt outcome of
workspace removal. -/
structure ConvEnv where
  fsx : FileSys
  imgMeta : String → Option AnimMeta
  dwebpOk : Bool
  animDumpOk : Bool
  syncListing : Option (List String)
  loadOk : String → Bool
  raster : String → List Nat
  rmOk : Nat → Bool

/-- Stand-in for `os.tmpdir()`. -/
def tmpdir : String := "/tmp"

/-- Embeds `path.join(os.tmpdir(), 'webp-conv', path.basename(input))`. -/
def workspaceFolder (input : String) : String :=
  pathJoin (pathJoin tmpdir "webp-conv") (basenameOf input)

/-- The frame loop of the animated branch, from frame list `fs` at loop
index `i`: `loadImage` the file (a failure throws out of the loop),
read `rawFrames[i].delay` (an out-of-range `i` makes `rawFrames[i]`
`undefined`, so reading `.delay` throws a `TypeError`), threshold the
raster's alpha, `setDelay`, `addFrame`. Returns the effects performed
before the loop finished or threw, and the thrown message if any. -/
def processFrames (env : ConvEnv) (meta : AnimMeta) (folder : String) :
    List String → Nat → List Effect × Option String
  | [], _ => ([], none)
  | f :: rest, i =>
    let file := pathJoin folder f
    if env.loadOk file then
      match meta.frames.get? i with
      | none => ([], some "TypeError: cannot read delay of undefined")
      | some d =>
        let r := processFrames env meta folder rest (i + 1)
        (.addFrame file (applyAlphaThreshold (env.raster file)) d :: r.1, r.2)
    else ([], some "loadImage failed")

/-- Embeds `convert(input, output, options, true)`, translated clause by
clause: argument and input-file checks, options merge, the static
`dwebp` branch for `.png` outputs, and the animated branch — image
load, encoder setup, workspace preparation, `anim_dump`, the frame
wait, the frame loop, encoder finish, and cleanup on both the success
path and the catch path with the original error rethrown. -/
def convertRun (env : ConvEnv) (defaults : Opts) (input output : String)
    (options : Opts) : ConvOutcome × List Effect :=
  if input = "" then (.done (.error "Input is required"), [])
  else if output = "" then (.done (.error "Output is required"), [])
  else if env.fsx.fexists input = false then
    (.done (.error "Input file does not exist"), [])
  else if env.fsx.isFile input = false then
    (.done (.error "Input is not a file"), [])
  else if extname input ≠ ".webp" then
    (.done (.error "Input file is not a webp file"), [])
  else if ¬ (extname output = ".gif" ∨ extname output = ".png") then
    (.done (.error "Output file must be a gif or png"), [])
  else
    let mergedOptions := jsSpread defaults options
    let quality := lookupOpt mergedOptions "quality"
    let transparent := lookupOpt mergedOptions "transparent"
    if strEndsWith output ".png" then
      (.done (if env.dwebpOk then .ok output else .error "dwebp failed"),
        [.dwebpCall [input, "-o", output]])
    else
      match env.imgMeta input with
      | none => (.done (.error "img load failed"), [])
      | some meta =>
        let folder := workspaceFolder input
        let pre : List Effect :=
          [.encoderInit output meta.loops transparent quality, .prepareWorkspace folder]
        let dumpEff := Effect.animDump ["-folder", folder, input]
        if env.animDumpOk = false then
          (.done (.error "anim_dump failed"),
            pre ++ [dumpEff, .cleanup folder (cleanupRun env.rmOk)])
        else
          match env.syncListing with
          | none => (.hangs, pre ++ [dumpEff])
          | some listing =>
            let frames := framesFilter listing
            let r := processFrames env meta folder frames 0
            match r.2 with
            | some e =>
              (.done (.error e),
                pre ++ dumpEff :: r.1 ++ [.cleanup folder (cleanupRun env.rmOk)])
            | none =>
              (.done (.ok output),
                pre ++ dumpEff :: r.1
                  ++ [.finishEncode, .cleanup folder (cleanupRun env.rmOk)])

/-! ## Job orchestration (`#processJob`, `convertJobs`) -/

/-- Embeds `#processJob(job)`: the output path is the job's `output` when that
is truthy (the JS `job.output || this.#generateOutputPath(input)` makes
an empty string fall back to inference too), the options are the
instance defaults spread under the job's settings, and `convert` is
called with them. A `none` job (non-object) is never processed after
validation but the translation stays total: it reads as missing fields. -/
def processJobRun (env : ConvEnv) (defaults : Opts) (j : Option Job) :
    ConvOutcome × List Effect :=
  match j with
  | none => convertRun env defaults "" "" []
  | some job =>
    let input := job.input.getD ""
    let output :=
      match job.output with
      | some o => if o = "" then generateOutputPath env.fsx input else o
      | none => generateOutputPath env.fsx input
    let jobOptions := jsSpread defaults job.settings
    convertRun env defaults input output jobOptions

/-- Result of a batch call: a settled promise (the ordered output paths
or the rejection), or a batch whose current job never settles. -/
inductive BatchOutcome where
  | done (r : Except String (List String))
  | hangs
  deriving DecidableEq, Repr

/-- The processing loop of `convertJobs`: jobs run strictly
sequentially; a rejection aborts the remaining jobs, a hang leaves the
batch unsettled; outputs are collected in order. -/
def processAll (env : ConvEnv) (defaults : Opts) :
    List (Option Job) → BatchOutcome × List Effect
  | [] => (.done (.ok []), [])
  | j :: rest =>
    match processJobRun env defaults j with
    | (.hangs, effs) => (.hangs, effs)
    | (.done (.error e), effs) => (.done (.error e), effs)
    | (.done (.ok out), effs) =>
      match processAll env defaults rest with
      | (.done (.ok outs), effs') => (.done (.ok (out :: outs)), effs ++ effs')
      | (.done (.error e), effs') => (.done (.error e), effs ++ effs')
      | (.hangs, effs') => (.hangs, effs ++ effs')

/-- Embeds `convertJobs(jobs)` on an array of jobs, for a converter built with
`new Converter(ctorOpts)`: first the validation loop over every job —
a validation throw rejects the call with nothing processed — then the
sequential processing loop. The effect list is everything the call
performed. -/
def convertJobsRun (env : ConvEnv) (ctorOpts : Opts) (jobs : List (Option Job)) :
    BatchOutcome × List Effect :=
  match validateAll env.fsx jobs with
  | .error e => (.done (.error e), [])
  | .ok _ => processAll env (instanceDefaults ctorOpts) jobs

/-! ## Helper lemmas -/

/-- The pixel loop preserves the length of the data array. -/
theorem applyAlphaThreshold_length : ∀ l : List Nat,
    (applyAlphaThreshold l).length = l.length
  | [] => rfl
  | [_] => rfl
  | [_, _] => rfl
  | [_, _, _] => rfl
  | _ :: _ :: _ :: _ :: rest => by
    simp [applyAlphaThreshold, applyAlphaThreshold_length rest]

/-- Pointwise characterisation of the pixel loop: an in-range byte at an
alpha offset (index ≡ 3 mod 4) is thresholded, every other byte is
unchanged. -/
theorem applyAlphaThreshold_getD : ∀ (l : List Nat) (n : Nat),
    (applyAlphaThreshold l).getD n 0 =
      if n % 4 = 3 ∧ n < l.length then thresholdAlpha (l.getD n 0) else l.getD n 0
  | [], n => by simp [applyAlphaThreshold]
  | [r], n => by
    match n with
    | 0 => simp [applyAlphaThreshold]
    | n + 1 => simp [applyAlphaThreshold, List.getD]
  | [r, g], n => by
    match n with
    | 0 | 1 => simp [applyAlphaThreshold]
    | n + 2 => simp [applyAlphaThreshold, List.getD]
  | [r, g, b], n => by
    match n with
    | 0 | 1 | 2 => simp [applyAlphaThreshold]
    | n + 3 => simp [applyAlphaThreshold, List.getD]
  | r :: g :: b :: a :: rest, n => by
    match n with
    | 0 | 1 | 2 => simp [applyAlphaThreshold]
    | 3 => simp [applyAlphaThreshold]
    | n + 4 =>
      have ih := applyAlphaThreshold_getD rest n
      simp only [applyAlphaThreshold, List.getD_cons_succ, List.length_cons, ih]
      have hmod : (n + 4) % 4 = n % 4 := Nat.add_mod_right n 4
      have hlt : n + 4 < rest.length + 1 + 1 + 1 + 1 ↔ n < rest.length := by omega
      rw [hmod]
      simp only [hlt]

/-- The poll loop exits only at a poll that observes exactly the
expected count. -/
theorem waitForFramesFuel_some : ∀ (counts : Nat → Nat) (expected fuel t : Nat),
    waitForFramesFuel counts expected fuel = some t → counts t = expected
  | counts, expected, 0, t, h => by simp [waitForFramesFuel] at h
  | counts, expected, fuel + 1, t, h => by
    simp only [waitForFramesFuel] at h
    by_cases h0 : counts 0 = expected
    · rw [if_pos h0] at h
      cases h
      exact h0
    · rw [if_neg h0] at h
      cases hin : waitForFramesFuel (fun s => counts (s + 1)) expected fuel with
      | none => rw [hin] at h; cases h
      | some u =>
        rw [hin] at h
        cases h
        exact waitForFramesFuel_some (fun s => counts (s + 1)) expected fuel u hin

/-- If no poll ever observes the expected count, the loop is still
spinning after any number of polls. -/
theorem waitForFramesFuel_none : ∀ (counts : Nat → Nat) (expected : Nat),
    (∀ s, counts s ≠ expected) → ∀ fuel, waitForFramesFuel counts expected fuel = none
  | _, _, _, 0 => rfl
  | counts, expected, h, fuel + 1 => by
    simp only [waitForFramesFuel, if_neg (h 0)]
    rw [waitForFramesFuel_none (fun s => counts (s + 1)) expected (fun s => h (s + 1)) fuel]

/-- A frame loop that finishes without throwing has consumed every
listed frame file. -/
theorem processFrames_length (env : ConvEnv) (meta : AnimMeta) (folder : String) :
    ∀ (fs : List String) (i : Nat),
      (processFrames env meta folder fs i).2 = none →
      (processFrames env meta folder fs i).1.length = fs.length
  | [], _, _ => rfl
  | f :: rest, i, h => by
    simp only [processFrames] at h ⊢
    by_cases hl : env.loadOk (pathJoin folder f) = true
    · rw [if_pos hl] at h ⊢
      cases hg : meta.frames.get? i with
      | none => rw [hg] at h; cases h
      | some d =>
        rw [hg] at h
        dsimp only at h ⊢
        simp only [List.length_cons]
        rw [processFrames_length env meta folder rest (i + 1) h]
    · rw [if_neg hl] at h; cases h

/-! ## C3 — alpha thresholding law -/

/-- C3: for every composited frame and every pixel, the output alpha is
0 when the input alpha is strictly between 0 and 128 and is the input
alpha otherwise, while the red, green and blue bytes of the pixel pass
through unchanged; and the output alpha depends only on the input alpha
(a second frame with the same alpha at the pixel but any other colour
bytes is thresholded to the same value). -/
theorem alpha_thresholding_law (data data' : List Nat) (i : Nat)
    (h : 4 * i + 3 < data.length)
    (hlen : 4 * i + 3 < data'.length)
    (halpha : data'.getD (4 * i + 3) 0 = data.getD (4 * i + 3) 0) :
    ((0 < data.getD (4 * i + 3) 0 ∧ data.getD (4 * i + 3) 0 < 128 →
        (applyAlphaThreshold data).getD (4 * i + 3) 0 = 0) ∧
     (¬ (0 < data.getD (4 * i + 3) 0 ∧ data.getD (4 * i + 3) 0 < 128) →
        (applyAlphaThreshold data).getD (4 * i + 3) 0 = data.getD (4 * i + 3) 0)) ∧
    ((applyAlphaThreshold data).getD (4 * i) 0 = data.getD (4 * i) 0 ∧
     (applyAlphaThreshold data).getD (4 * i + 1) 0 = data.getD (4 * i + 1) 0 ∧
     (applyAlphaThreshold data).getD (4 * i + 2) 0 = data.getD (4 * i + 2) 0) ∧
    (applyAlphaThreshold data').getD (4 * i + 3) 0 =
      (applyAlphaThreshold data).getD (4 * i + 3) 0 := by
  have m3 : (4 * i + 3) % 4 = 3 := by omega
  have m0 : (4 * i) % 4 = 0 := by omega
  have m1 : (4 * i + 1) % 4 = 1 := by omega
  have m2 : (4 * i + 2) % 4 = 2 := by omega
  have e3 := applyAlphaThreshold_getD data (4 * i + 3)
  have e3' := applyAlphaThreshold_getD data' (4 * i + 3)
  have e0 := applyAlphaThreshold_getD data (4 * i)
  have e1 := applyAlphaThreshold_getD data (4 * i + 1)
  have e2 := applyAlphaThreshold_getD data (4 * i + 2)
  rw [if_pos ⟨m3, h⟩] at e3
  rw [if_pos ⟨m3, hlen⟩] at e3'
  rw [if_neg (by omega)] at e0
  rw [if_neg (by omega)] at e1
  rw [if_neg (by omega)] at e2
  refine ⟨⟨fun ha => ?_, fun ha => ?_⟩, ⟨e0, e1, e2⟩, ?_⟩
  · rw [e3, thresholdAlpha, if_pos ha]
  · rw [e3, thresholdAlpha, if_neg ha]
  · rw [e3, e3', halpha]

/-- C3 witness: a concrete two-pixel frame; alpha 64 snaps to 0, alpha
200 is kept, colour bytes pass through, and a frame with the same
alphas but different colours thresholds identically. -/
theorem alpha_thresholding_law_witness :
    (4 * 0 + 3 < ([200, 100, 50, 64, 7, 8, 9, 200] : List Nat).length) ∧
    ((0 < ([200, 100, 50, 64, 7, 8, 9, 200] : List Nat).getD (4 * 0 + 3) 0 ∧
        ([200, 100, 50, 64, 7, 8, 9, 200] : List Nat).getD (4 * 0 + 3) 0 < 128 →
      (applyAlphaThreshold [200, 100, 50, 64, 7, 8, 9, 200]).getD (4 * 0 + 3) 0 = 0) ∧
     (applyAlphaThreshold [0, 0, 0, 64, 1, 2, 3, 255]).getD (4 * 0 + 3) 0 =
       (applyAlphaThreshold [200, 100, 50, 64, 7, 8, 9, 200]).getD (4 * 0 + 3) 0) := by
  have := alpha_thresholding_law [200, 100, 50, 64, 7, 8, 9, 200]
    [0, 0, 0, 64, 1, 2, 3, 255] 0 (by decide) (by decide) (by decide)
  exact ⟨by decide, this.1.1, this.2.2⟩

/-! ## C2 / C5 — frame synchronization has no timeout and no surplus
handling -/

/-- A filesystem with a single regular, unreadable file `a.webp`. -/
def fsOne : FileSys :=
  ⟨fun p => p == "a.webp", fun p => p == "a.webp", fun _ => none⟩

/-- Three-frame animation metadata on a 4×4 canvas. -/
def metaThree : AnimMeta := ⟨4, 4, 0, [10, 20, 30]⟩

/-- An environment whose decoder process exits cleanly but never makes
the expected number of frame files visible: the frame wait never
returns. -/
def envHang : ConvEnv where
  fsx := fsOne
  imgMeta := fun p => if p == "a.webp" then some metaThree else none
  dwebpOk := true
  animDumpOk := true
  syncListing := none
  loadOk := fun _ => true
  raster := fun _ => []
  rmOk := fun _ => true

/-- C2 counterexample: with a decoder that never writes a file (the
observed entry count is 0 at every poll, expected 1), the wait loop is
still spinning after any number of polls — there is no upper bound on
the wait, no timeout branch, and no `SynchronizationTimeoutError`
anywhere in the loop; the corresponding `convert` call never settles. -/
theorem sync_timeout_counterexample :
    (∀ fuel, waitForFramesFuel (fun _ => 0) 1 fuel = none) ∧
    (convertRun envHang [] "a.webp" "a.gif" []).1 = ConvOutcome.hangs :=
  ⟨fun fuel => waitForFramesFuel_none (fun _ => 0) 1 (fun _ => (by decide : (0 : Nat) ≠ 1)) fuel,
   by decide⟩

/-- C2 (amended): the frame wait has no timeout: it returns exactly at
the first poll that observes the expected count, and if no poll ever
observes it the loop is still spinning after any number of polls —
the call hangs rather than rejecting. -/
theorem waitForFrames_unbounded (counts : Nat → Nat) (expected fuel t : Nat) :
    (waitForFramesFuel counts expected fuel = some t → counts t = expected) ∧
    ((∀ s, counts s ≠ expected) → waitForFramesFuel counts expected fuel = none) :=
  ⟨waitForFramesFuel_some counts expected fuel t,
   fun h => waitForFramesFuel_none counts expected h fuel⟩

/-- C2 witness: the wait over a trace that shows 3 entries at poll 2
exits there with the expected count observed; over the all-zero trace
it is still spinning after 10 polls. -/
theorem waitForFrames_unbounded_witness :
    ((fun s => if s = 2 then 3 else 0 : Nat → Nat) 2 = 3) ∧
    waitForFramesFuel (fun _ => 0) 3 10 = none :=
  ⟨(waitForFrames_unbounded (fun s => if s = 2 then 3 else 0) 3 10 2).1 (by decide),
   (waitForFrames_unbounded (fun _ => 0) 3 10 0).2 (fun _ => (by decide : (0 : Nat) ≠ 3))⟩

/-- C5 counterexample: with more files visible than expected (2 entries
at every poll, expected 1) the synchronization does not proceed with a
prefix of the frames — the loop requires exact equality and is still
spinning after any number of polls. -/
theorem surplus_counterexample :
    waitForFramesFuel (fun _ => 2) 1 1000 = none ∧
    (∀ fuel, waitForFramesFuel (fun _ => 2) 1 fuel = none) :=
  ⟨waitForFramesFuel_none (fun _ => 2) 1 (fun _ => (by decide : (2 : Nat) ≠ 1)) 1000,
   fun fuel =>
     waitForFramesFuel_none (fun _ => 2) 1 (fun _ => (by decide : (2 : Nat) ≠ 1)) fuel⟩

/-- C5 (amended): a persistent surplus of frame files makes the wait
loop poll forever (it exits only on exact equality with the expected
count); and when the frame loop does run, it consumes every `.png`
file of the listing, not only the first `frameCount` of them. -/
theorem surplus_waits_forever (counts : Nat → Nat) (expected fuel : Nat)
    (env : ConvEnv) (meta : AnimMeta) (folder : String) (listing : List String)
    (h : ∀ s, expected < counts s) :
    waitForFramesFuel counts expected fuel = none ∧
    ((processFrames env meta folder (framesFilter listing) 0).2 = none →
      (processFrames env meta folder (framesFilter listing) 0).1.length
        = (framesFilter listing).length) :=
  ⟨waitForFramesFuel_none counts expected (fun s => Nat.ne_of_gt (h s)) fuel,
   processFrames_length env meta folder (framesFilter listing) 0⟩

/-- C5 witness: a constant surplus trace (2 entries, 1 expected) spins
for 7 polls and counting; a 2-file listing is consumed in full by the
frame loop. -/
theorem surplus_waits_forever_witness :
    waitForFramesFuel (fun _ => 2) 1 7 = none ∧
    (processFrames envHang metaThree "/tmp/webp-conv/a.webp"
        (framesFilter ["f1.png", "f2.png"]) 0).1.length
      = (framesFilter ["f1.png", "f2.png"]).length :=
  ⟨(surplus_waits_forever (fun _ => 2) 1 7 envHang metaThree "/tmp/webp-conv/a.webp"
      ["f1.png", "f2.png"] (fun _ => (by decide : (1 : Nat) < 2))).1,
   (surplus_waits_forever (fun _ => 2) 1 7 envHang metaThree "/tmp/webp-conv/a.webp"
      ["f1.png", "f2.png"] (fun _ => (by decide : (1 : Nat) < 2))).2 (by decide)⟩

/-! ## C4 — frame processing order -/

/-- The frame files handed to the encoder, in order, read off an effect
trace. -/
def addFrameFiles (effs : List Effect) : List String :=
  effs.filterMap fun e =>
    match e with
    | .addFrame f _ _ => some f
    | _ => none

/-- A frame loop that finishes without throwing has handed every listed
frame file to the encoder, in list order. -/
theorem processFrames_addFrameFiles (env : ConvEnv) (meta : AnimMeta) (folder : String) :
    ∀ (fs : List String) (i : Nat),
      (processFrames env meta folder fs i).2 = none →
      addFrameFiles (processFrames env meta folder fs i).1
        = fs.map (fun f => pathJoin folder f)
  | [], _, _ => rfl
  | f :: rest, i, h => by
    simp only [processFrames] at h ⊢
    by_cases hl : env.loadOk (pathJoin folder f) = true
    · rw [if_pos hl] at h ⊢
      cases hg : meta.frames.get? i with
      | none => rw [hg] at h; cases h
      | some d =>
        rw [hg] at h
        dsimp only at h ⊢
        have ih := processFrames_addFrameFiles env meta folder rest (i + 1) h
        simp only [addFrameFiles] at ih
        simp [addFrameFiles, List.filterMap_cons, ih]
    · rw [if_neg hl] at h; cases h

/-- An environment in which `anim_dump` succeeds and the workspace
listing settles to three unpadded frame files in lexical
directory-listing order. -/
def envC4 : ConvEnv where
  fsx := fsOne
  imgMeta := fun p => if p == "a.webp" then some metaThree else none
  dwebpOk := true
  animDumpOk := true
  syncListing := some ["frame-1.png", "frame-10.png", "frame-2.png"]
  loadOk := fun _ => true
  raster := fun _ => []
  rmOk := fun _ => true

/-- C4 counterexample: with three unpadded frame files listed in
lexical order, the files handed to the encoder follow the listing order
(`frame-10` before `frame-2`), which differs from the order by the
numeric frame index embedded in the filenames. -/
theorem frame_order_counterexample :
    addFrameFiles (convertRun envC4 [] "a.webp" "a.gif" []).2
      = ["/tmp/webp-conv/a.webp/frame-1.png", "/tmp/webp-conv/a.webp/frame-10.png",
         "/tmp/webp-conv/a.webp/frame-2.png"] ∧
    specNumericSort ["frame-1.png", "frame-10.png", "frame-2.png"]
      = ["frame-1.png", "frame-2.png", "frame-10.png"] ∧
    addFrameFiles (convertRun envC4 [] "a.webp" "a.gif" []).2
      ≠ (specNumericSort ["frame-1.png", "frame-10.png", "frame-2.png"]).map
          (fun f => pathJoin (workspaceFolder "a.webp") f) := by
  refine ⟨by decide, by decide, by decide⟩

/-- C4 (amended): during an animated conversion that reaches and
completes the frame loop, the frame files are composited and fed to the
encoder in the order of the workspace directory listing restricted to
`.png` files — no reordering by embedded numeric frame index takes
place. -/
theorem frames_processed_in_listing_order (env : ConvEnv) (defaults : Opts)
    (input output : String) (opts : Opts) (meta : AnimMeta) (listing : List String)
    (hin : ¬ input = "") (hout : ¬ output = "")
    (hfe : env.fsx.fexists input = true) (hif : env.fsx.isFile input = true)
    (hext : extname input = ".webp") (hoext : extname output = ".gif")
    (hpng : strEndsWith output ".png" = false)
    (himg : env.imgMeta input = some meta)
    (hdump : env.animDumpOk = true)
    (hsync : env.syncListing = some listing)
    (hok : (processFrames env meta (workspaceFolder input)
              (framesFilter listing) 0).2 = none) :
    (convertRun env defaults input output opts).1 = .done (.ok output) ∧
    addFrameFiles (convertRun env defaults input output opts).2
      = (framesFilter listing).map (fun f => pathJoin (workspaceFolder input) f) := by
  have hfe' : ¬ env.fsx.fexists input = false := by simp [hfe]
  have hif' : ¬ env.fsx.isFile input = false := by simp [hif]
  have hext' : ¬ extname input ≠ ".webp" := by simp [hext]
  have hoext' : ¬ ¬ (extname output = ".gif" ∨ extname output = ".png") := by
    simp [hoext]
  have hpng' : ¬ strEndsWith output ".png" = true := by simp [hpng]
  have hdump' : ¬ env.animDumpOk = false := by simp [hdump]
  simp only [convertRun, if_neg hin, if_neg hout, if_neg hfe', if_neg hif',
    if_neg hext', if_neg hoext', if_neg hpng', himg, hdump', ite_false, if_neg hdump',
    hsync]
  rw [hok]
  dsimp only
  refine ⟨rfl, ?_⟩
  have hmm := processFrames_addFrameFiles env meta (workspaceFolder input)
    (framesFilter listing) 0 hok
  simp only [addFrameFiles] at hmm ⊢
  simp [List.filterMap_append, List.filterMap_cons, hmm]

/-- C4 witness for the amended theorem: the concrete three-frame
environment completes and hands the frames over in listing order. -/
theorem frames_processed_in_listing_order_witness :
    (convertRun envC4 [] "a.webp" "a.gif" []).1 = .done (.ok "a.gif") ∧
    addFrameFiles (convertRun envC4 [] "a.webp" "a.gif" []).2
      = (framesFilter ["frame-1.png", "frame-10.png", "frame-2.png"]).map
          (fun f => pathJoin (workspaceFolder "a.webp") f) :=
  frames_processed_in_listing_order envC4 [] "a.webp" "a.gif" [] metaThree
    ["frame-1.png", "frame-10.png", "frame-2.png"]
    (by decide) (by decide) (by decide) (by decide) (by decide) (by decide)
    (by decide) rfl rfl rfl (by decide)

/-! ## C1 — batch fail-fast validation -/

/-- A job that fails validation makes the whole validation loop fail. -/
theorem validateAll_error_of_mem (fsx : FileSys) :
    ∀ (jobs : List (Option Job)) (j : Option Job), j ∈ jobs →
      (∃ e, validateJob fsx j = .error e) → ∃ e, validateAll fsx jobs = .error e
  | [], j, hj, _ => absurd hj (List.not_mem_nil j)
  | k :: rest, j, hj, hbad => by
    obtain ⟨e, he⟩ := hbad
    simp only [validateAll]
    cases hk : validateJob fsx k with
    | error e' => exact ⟨e', rfl⟩
    | ok u =>
      rcases List.mem_cons.mp hj with rfl | hmem
      · rw [hk] at he; cases he
      · exact validateAll_error_of_mem fsx rest j hmem ⟨e, he⟩

/-- C1: in a `convertJobs` batch, every job is validated before any job
is processed: if some job in the sequence fails validation, the whole
call rejects and the effect trace is empty — no decoder process is
invoked, no output stream is opened, no frame is encoded. -/
theorem batch_fail_fast (env : ConvEnv) (ctorOpts : Opts) (jobs : List (Option Job))
    (j : Option Job) (e : String) (hj : j ∈ jobs)
    (he : validateJob env.fsx j = .error e) :
    (∃ e', (convertJobsRun env ctorOpts jobs).1 = .done (.error e')) ∧
    (convertJobsRun env ctorOpts jobs).2 = [] := by
  obtain ⟨e', he'⟩ := validateAll_error_of_mem env.fsx jobs j hj ⟨e, he⟩
  simp only [convertJobsRun, he']
  exact ⟨⟨e', rfl⟩, trivial⟩

/-- The batch of the spec's fail-fast scenario: three jobs, the second
of which has a non-existent input. -/
def jobBadC1 : Option Job := some ⟨some "b.txt", none, []⟩

/-- Three-job batch with a validation failure in the middle. -/
def jobsC1 : List (Option Job) :=
  [some ⟨some "a.webp", some "out.gif", []⟩, jobBadC1, some ⟨some "a.webp", none, []⟩]

/-- C1 witness: the concrete 3-job batch whose second job fails
validation rejects with no side effect at all. -/
theorem batch_fail_fast_witness :
    jobBadC1 ∈ jobsC1 ∧
    ((∃ e', (convertJobsRun envHang [] jobsC1).1 = .done (.error e')) ∧
     (convertJobsRun envHang [] jobsC1).2 = []) :=
  ⟨by simp [jobsC1],
   batch_fail_fast envHang [] jobsC1 jobBadC1 "Input file does not exist"
     (by simp [jobsC1]) (by decide)⟩

/-! ## C6 — output path inference -/

/-- C6: when a job carries no output path, the path handed to `convert`
is the inferred one: the input's directory joined with the input's
basename stripped of `.webp`, with extension `.gif` exactly when the
container bytes contain the `ANIM` marker and `.png` otherwise; and a
failing read falls back to `.png` instead of failing the job. -/
theorem output_path_inference (env : ConvEnv) (defaults : Opts) (job : Job)
    (input : String) (hin : job.input = some input) (hout : job.output = none) :
    processJobRun env defaults (some job)
      = convertRun env defaults input (generateOutputPath env.fsx input)
          (jsSpread defaults job.settings) ∧
    (env.fsx.readFile input = none →
       generateOutputPath env.fsx input
         = pathJoin (dirname input) (basenameNoWebp input ++ ".png")) ∧
    (∀ buf, env.fsx.readFile input = some buf →
       generateOutputPath env.fsx input
         = pathJoin (dirname input)
             (basenameNoWebp input
               ++ (if containsSeq animMarker buf then ".gif" else ".png"))) := by
  refine ⟨?_, fun h => ?_, fun buf h => ?_⟩
  · simp [processJobRun, hin, hout]
  · simp [generateOutputPath, h]
  · simp [generateOutputPath, h]

/-- A filesystem with one readable file `pic.webp` whose bytes contain
the `ANIM` marker. -/
def fsAnim : FileSys where
  fexists := fun p => p == "pic.webp"
  isFile := fun p => p == "pic.webp"
  readFile := fun p =>
    if p == "pic.webp" then some [82, 73, 70, 70, 65, 78, 73, 77] else none

/-- Environment over `fsAnim`. -/
def envC6 : ConvEnv where
  fsx := fsAnim
  imgMeta := fun _ => none
  dwebpOk := true
  animDumpOk := true
  syncListing := none
  loadOk := fun _ => true
  raster := fun _ => []
  rmOk := fun _ => true

/-- C6 witness: an output-less job on an `ANIM`-marked container
resolves to the `.gif` sibling path (`pic.gif`), and an unreadable
input resolves to the `.png` sibling path. -/
theorem output_path_inference_witness :
    (processJobRun envC6 [] (some ⟨some "pic.webp", none, []⟩)
      = convertRun envC6 [] "pic.webp" (generateOutputPath envC6.fsx "pic.webp")
          (jsSpread [] []) ∧
     generateOutputPath envC6.fsx "pic.webp"
       = pathJoin (dirname "pic.webp")
           (basenameNoWebp "pic.webp"
             ++ (if containsSeq animMarker [82, 73, 70, 70, 65, 78, 73, 77]
                 then ".gif" else ".png"))) ∧
    (generateOutputPath envHang.fsx "a.webp"
       = pathJoin (dirname "a.webp") (basenameNoWebp "a.webp" ++ ".png")) ∧
    generateOutputPath envC6.fsx "pic.webp" = "pic.gif" :=
  ⟨⟨(output_path_inference envC6 [] ⟨some "pic.webp", none, []⟩ "pic.webp" rfl rfl).1,
    (output_path_inference envC6 [] ⟨some "pic.webp", none, []⟩ "pic.webp" rfl rfl).2.2
      [82, 73, 70, 70, 65, 78, 73, 77] rfl⟩,
   (output_path_inference envHang [] ⟨some "a.webp", none, []⟩ "a.webp" rfl rfl).2.1 rfl,
   by decide⟩

/-! ## C7 — no strict-mode settings key check -/

/-- C7 counterexample: a job whose settings object carries the
unrecognized key `foo` passes validation unchallenged, and the full
batch call converts it and resolves — no `ValidationError` is raised
for unrecognized setting keys anywhere. -/
theorem unknown_setting_key_counterexample :
    validateJob fsOne (some ⟨some "a.webp", none, [("foo", "bar")]⟩) = .ok () ∧
    (convertJobsRun envHang []
        [some ⟨some "a.webp", some "out.png", [("foo", "bar")]⟩]).1
      = .done (.ok ["out.png"]) :=
  ⟨by decide, by decide⟩

/-- C7 (amended): validation never inspects the settings object — a job
validates identically under any two settings objects, so an
unrecognized settings key is not rejected; it is merged into the
effective options and simply never read. -/
theorem validation_ignores_settings (fsx : FileSys) (input output : Option String)
    (s₁ s₂ : List (String × String)) :
    validateJob fsx (some ⟨input, output, s₁⟩)
      = validateJob fsx (some ⟨input, output, s₂⟩) := rfl

/-! ## C8 — cleanup on every exit path, bounded retry, error priority -/

/-- The cleanup retry makes at least one and at most
`maxCleanupAttempts` removal attempts, whatever the attempt outcomes,
and always returns (no cleanup failure escapes). -/
theorem cleanupFolder_bounds (rmOk : Nat → Bool) :
    ∀ k a, maxCleanupAttempts - a ≤ k → a < maxCleanupAttempts →
      a + 1 ≤ cleanupFolder rmOk a ∧ cleanupFolder rmOk a ≤ maxCleanupAttempts
  | 0, a, hk, ha => by
    exfalso
    simp only [maxCleanupAttempts] at hk ha
    omega
  | k + 1, a, hk, ha => by
    rw [cleanupFolder]
    by_cases h : rmOk a = true
    · rw [if_pos h]
      omega
    · rw [if_neg h]
      by_cases h2 : a + 1 < maxCleanupAttempts
      · rw [if_pos h2]
        have hrec := cleanupFolder_bounds rmOk k (a + 1)
          (by simp only [maxCleanupAttempts] at *; omega) h2
        omega
      · rw [if_neg h2]
        omega

/-- Bounds for a full cleanup run. -/
theorem cleanupRun_bounds (rmOk : Nat → Bool) :
    1 ≤ cleanupRun rmOk ∧ cleanupRun rmOk ≤ maxCleanupAttempts :=
  cleanupFolder_bounds rmOk maxCleanupAttempts 0 (by omega)
    (by simp [maxCleanupAttempts])

/-- C8: for an animated conversion, every settled exit path — external
decoder failure, an exception thrown out of the frame loop, or success
after encoder finalization — attempts workspace removal with a bounded
retry (between 1 and 5 attempts), and the settled result is exactly the
original one whatever the removal attempts do: a cleanup failure is
never raised and never replaces the processing error or the resolved
output path. -/
theorem animated_cleanup_every_exit (env : ConvEnv) (defaults : Opts)
    (input output : String) (opts : Opts) (meta : AnimMeta) (listing : List String)
    (hin : ¬ input = "") (hout : ¬ output = "")
    (hfe : env.fsx.fexists input = true) (hif : env.fsx.isFile input = true)
    (hext : extname input = ".webp") (hoext : extname output = ".gif")
    (hpng : strEndsWith output ".png" = false)
    (himg : env.imgMeta input = some meta)
    (hsync : env.syncListing = some listing) :
    (1 ≤ cleanupRun env.rmOk ∧ cleanupRun env.rmOk ≤ maxCleanupAttempts) ∧
    (env.animDumpOk = false →
       (convertRun env defaults input output opts).1 = .done (.error "anim_dump failed") ∧
       Effect.cleanup (workspaceFolder input) (cleanupRun env.rmOk)
         ∈ (convertRun env defaults input output opts).2) ∧
    (∀ e, env.animDumpOk = true →
       (processFrames env meta (workspaceFolder input) (framesFilter listing) 0).2 = some e →
       (convertRun env defaults input output opts).1 = .done (.error e) ∧
       Effect.cleanup (workspaceFolder input) (cleanupRun env.rmOk)
         ∈ (convertRun env defaults input output opts).2) ∧
    (env.animDumpOk = true →
       (processFrames env meta (workspaceFolder input) (framesFilter listing) 0).2 = none →
       (convertRun env defaults input output opts).1 = .done (.ok output) ∧
       Effect.cleanup (workspaceFolder input) (cleanupRun env.rmOk)
         ∈ (convertRun env defaults input output opts).2) := by
  have hfe' : ¬ env.fsx.fexists input = false := by simp [hfe]
  have hif' : ¬ env.fsx.isFile input = false := by simp [hif]
  have hext' : ¬ extname input ≠ ".webp" := by simp [hext]
  have hoext' : ¬ ¬ (extname output = ".gif" ∨ extname output = ".png") := by
    simp [hoext]
  have hpng' : ¬ strEndsWith output ".png" = true := by simp [hpng]
  refine ⟨cleanupRun_bounds env.rmOk, fun hdump => ?_, fun e hdump hfail => ?_,
    fun hdump hok => ?_⟩
  · simp only [convertRun, if_neg hin, if_neg hout, if_neg hfe', if_neg hif',
      if_neg hext', if_neg hoext', if_neg hpng', himg, hdump, if_pos rfl]
    simp
  · have hdump' : ¬ env.animDumpOk = false := by simp [hdump]
    simp only [convertRun, if_neg hin, if_neg hout, if_neg hfe', if_neg hif',
      if_neg hext', if_neg hoext', if_neg hpng', himg, if_neg hdump', hsync]
    rw [hfail]
    dsimp only
    simp
  · have hdump' : ¬ env.animDumpOk = false := by simp [hdump]
    simp only [convertRun, if_neg hin, if_neg hout, if_neg hfe', if_neg hif',
      if_neg hext', if_neg hoext', if_neg hpng', himg, if_neg hdump', hsync]
    rw [hok]
    dsimp only
    simp

/-- C8 witness: the concrete three-frame environment succeeds, its
effect trace ends with a cleanup attempt, and the retry count is within
bounds. -/
theorem animated_cleanup_every_exit_witness :
    (1 ≤ cleanupRun envC4.rmOk ∧ cleanupRun envC4.rmOk ≤ maxCleanupAttempts) ∧
    ((convertRun envC4 [] "a.webp" "a.gif" []).1 = .done (.ok "a.gif") ∧
     Effect.cleanup (workspaceFolder "a.webp") (cleanupRun envC4.rmOk)
       ∈ (convertRun envC4 [] "a.webp" "a.gif" []).2) :=
  ⟨(animated_cleanup_every_exit envC4 [] "a.webp" "a.gif" [] metaThree
      ["frame-1.png", "frame-10.png", "frame-2.png"] (by decide) (by decide)
      (by decide) (by decide) (by decide) (by decide) (by decide) rfl rfl).1,
   (animated_cleanup_every_exit envC4 [] "a.webp" "a.gif" [] metaThree
      ["frame-1.png", "frame-10.png", "frame-2.png"] (by decide) (by decide)
      (by decide) (by decide) (by decide) (by decide) (by decide) rfl rfl).2.2.2
     rfl (by decide)⟩

/-! ## C9 — settings precedence -/

/-- Lookup through a spread: the later object's keys win. -/
theorem lookupOpt_append (a b : Opts) (k : String) :
    lookupOpt (a ++ b) k
      = match lookupOpt b k with
        | some v => some v
        | none => lookupOpt a k := by
  induction a with
  | nil =>
    simp only [List.nil_append, lookupOpt]
    cases lookupOpt b k <;> rfl
  | cons p rest ih =>
    obtain ⟨k', v⟩ := p
    cases hb : lookupOpt b k <;> cases hr : lookupOpt rest k <;>
      simp_all [lookupOpt, List.cons_append]

/-- The option value `convert` reads during `#processJob`: the instance
defaults are spread under the job settings in `#processJob`, and the
result is spread over the instance defaults once more inside `convert`. -/
def effectiveSettings (ctorOpts jobSettings : Opts) (k : String) : Option String :=
  lookupOpt
    (jsSpread (instanceDefaults ctorOpts) (jsSpread (instanceDefaults ctorOpts) jobSettings)) k

/-- C9: the effective per-job settings are the job's settings keys
overriding the constructor defaults, which override the hardcoded
defaults; a key absent at every level reads the hardcoded default —
`quality` 10 and `transparent` `0x000000`. -/
theorem settings_precedence (ctorOpts jobSettings : Opts) (k : String) :
    (∀ v, lookupOpt jobSettings k = some v →
       effectiveSettings ctorOpts jobSettings k = some v) ∧
    (lookupOpt jobSettings k = none → ∀ v, lookupOpt ctorOpts k = some v →
       effectiveSettings ctorOpts jobSettings k = some v) ∧
    (lookupOpt jobSettings k = none → lookupOpt ctorOpts k = none →
       effectiveSettings ctorOpts jobSettings k = lookupOpt hardcodedDefaults k) ∧
    (lookupOpt jobSettings "quality" = none → lookupOpt ctorOpts "quality" = none →
       effectiveSettings ctorOpts jobSettings "quality" = some "10") ∧
    (lookupOpt jobSettings "transparent" = none →
       lookupOpt ctorOpts "transparent" = none →
       effectiveSettings ctorOpts jobSettings "transparent" = some "0x000000") := by
  have key : ∀ q : String,
      effectiveSettings ctorOpts jobSettings q
        = match lookupOpt jobSettings q with
          | some v => some v
          | none =>
            match lookupOpt ctorOpts q with
            | some v => some v
            | none => lookupOpt hardcodedDefaults q := by
    intro q
    simp only [effectiveSettings, jsSpread, instanceDefaults,
      lookupOpt_append (hardcodedDefaults ++ ctorOpts)
        ((hardcodedDefaults ++ ctorOpts) ++ jobSettings) q,
      lookupOpt_append (hardcodedDefaults ++ ctorOpts) jobSettings q,
      lookupOpt_append hardcodedDefaults ctorOpts q]
    cases lookupOpt jobSettings q <;> cases lookupOpt ctorOpts q <;>
      first
        | rfl
        | (cases hh : lookupOpt hardcodedDefaults q <;> simp [hh])
  refine ⟨fun v hv => ?_, fun hn v hv => ?_, fun hn hn' => ?_, fun hn hn' => ?_,
    fun hn hn' => ?_⟩
  · rw [key k, hv]
  · rw [key k, hn, hv]
  · rw [key k, hn, hn']
  · rw [key "quality", hn, hn']; rfl
  · rw [key "transparent", hn, hn']; rfl

/-- C9 witness: with constructor defaults `{quality: 55}` and job
settings `{transparent: 0xFFFFFF}`, the job key wins for `transparent`,
the constructor key wins for `quality`; with nothing given anywhere the
hardcoded defaults are read. -/
theorem settings_precedence_witness :
    effectiveSettings [("quality", "55")] [("transparent", "0xFFFFFF")] "transparent"
      = some "0xFFFFFF" ∧
    effectiveSettings [("quality", "55")] [("transparent", "0xFFFFFF")] "quality"
      = some "55" ∧
    effectiveSettings [] [] "quality" = some "10" ∧
    effectiveSettings [] [] "transparent" = some "0x000000" :=
  ⟨(settings_precedence [("quality", "55")] [("transparent", "0xFFFFFF")]
      "transparent").1 "0xFFFFFF" (by decide),
   (settings_precedence [("quality", "55")] [("transparent", "0xFFFFFF")]
      "quality").2.1 (by decide) "55" (by decide),
   (settings_precedence [] [] "quality").2.2.2.1 (by decide) (by decide),
   (settings_precedence [] [] "transparent").2.2.2.2 (by decide) (by decide)⟩

/-! ## C10 — static conversions are settings-independent -/

/-- C10: for a `.png` output, the whole `convert` run — the arguments
of the external static decoder call, the resolved output path, and the
entire effect trace — is the same under any two settings objects, and
the static decoder is invoked with exactly the input and output paths:
no setting is ever passed to a static decode. -/
theorem static_conversion_settings_independent (env : ConvEnv) (defaults : Opts)
    (input output : String) (s₁ s₂ : Opts)
    (h : strEndsWith output ".png" = true) :
    convertRun env defaults input output s₁ = convertRun env defaults input output s₂ ∧
    ((convertRun env defaults input output s₁).2 = [] ∨
     (convertRun env defaults input output s₁).2
       = [.dwebpCall [input, "-o", output]]) := by
  constructor
  · simp only [convertRun, h, if_true]
  · simp only [convertRun, h, if_true]
    split
    · simp
    · split
      · simp
      · split
        · simp
        · split
          · simp
          · split
            · simp
            · split
              · simp
              · simp

/-- C10 witness: on the concrete static input, runs with quality 99 and
with a transparent color give identical traces, consisting of the bare
`dwebp` call. -/
theorem static_settings_independent_witness :
    convertRun envHang [] "a.webp" "out.png" [("quality", "99")]
      = convertRun envHang [] "a.webp" "out.png" [("transparent", "0xFF0000")] ∧
    ((convertRun envHang [] "a.webp" "out.png" [("quality", "99")]).2 = [] ∨
     (convertRun envHang [] "a.webp" "out.png" [("quality", "99")]).2
       = [.dwebpCall ["a.webp", "-o", "out.png"]]) :=
  static_conversion_settings_independent envHang [] "a.webp" "out.png"
    [("quality", "99")] [("transparent", "0xFF0000")] (by decide)

end WebpConv
